import Mathlib

/-!
Shallow embedding of the sync-tokens crate
(src/cancelation_token.rs and src/completion_token.rs).

The shared, mutex-guarded state cells are modelled as explicit state values
threaded through each operation.  Wakers are an abstract type W; an operation
that invokes wakers returns the list of wakers it invoked, in order.  A Rust
panic is modelled as an explicit constructor carrying the state at the moment
of the panic (including any mutations performed before the panic).  Cloning a
handle aliases the same shared cell, so on the state level a clone is the
identity.
-/

/-- Result of one call to Future::poll: Ready with a value, or Pending. -/
inductive Poll (α : Type) where
  | Ready : α → Poll α
  | Pending : Poll α
deriving DecidableEq

/-- Shared state of the cancellation latch, struct CancelationTokenState
(cancelation_token.rs lines 39-43): a canceled flag and a single waker slot. -/
structure CancelationTokenState (W : Type) where
  canceled : Bool
  waker : Option W
deriving DecidableEq

/-- Fresh state produced by CancelationToken::new (cancelation_token.rs
lines 48-61): canceled = false, no waker stored. -/
def CancelationToken.new {W : Type} : CancelationTokenState W :=
  { canceled := false, waker := none }

/-- State transition of CancelationToken::cancel (cancelation_token.rs lines
65-72): under the lock, set canceled to true, take the stored waker and wake
it if present.  Returns the new state and the list of wakers invoked. -/
def CancelationToken.cancel {W : Type} (s : CancelationTokenState W) :
    CancelationTokenState W × List W :=
  ({ canceled := true, waker := none }, s.waker.toList)

/-- State transition of the Future impl for CancelationTokenFuture
(cancelation_token.rs lines 112-121): under the lock, if canceled return
Ready, otherwise store a clone of the context waker and return Pending. -/
def CancelationTokenFuture.poll {W : Type} (s : CancelationTokenState W)
    (cx : W) : CancelationTokenState W × Poll Unit :=
  if s.canceled then (s, Poll.Ready ())
  else ({ s with waker := some cx }, Poll.Pending)

/-- Clone for CancelationToken (cancelation_token.rs lines 124-130) clones the
Arc, aliasing the same shared cell: the shared state is unchanged. -/
def CancelationToken.clone {W : Type} (s : CancelationTokenState W) :
    CancelationTokenState W := s

/-- Clone for Cancelable (cancelation_token.rs lines 132-138) clones the Arc,
aliasing the same shared cell: the shared state is unchanged. -/
def Cancelable.clone {W : Type} (s : CancelationTokenState W) :
    CancelationTokenState W := s

/-- Shared state of the completion latch, struct CompletionTokenState
(completion_token.rs lines 29-34). -/
structure CompletionTokenState (T W : Type) where
  complete : Bool
  result : Option T
  waker : Option W
deriving DecidableEq

/-- Fresh state produced by CompletionToken::new (completion_token.rs
lines 40-54). -/
def CompletionToken.new {T W : Type} : CompletionTokenState T W :=
  { complete := false, result := none, waker := none }

/-- Outcome of Completable::complete: either the new state together with the
wakers invoked, or a panic carrying the (unchanged) state at panic time. -/
inductive CompleteResult (T W : Type) where
  | ok : CompletionTokenState T W → List W → CompleteResult T W
  | panicked : CompletionTokenState T W → CompleteResult T W
deriving DecidableEq

/-- State transition of Completable::complete (completion_token.rs lines
60-73): under the lock, panic if already complete; otherwise set complete,
store the result, take the stored waker and wake it if present. -/
def Completable.complete {T W : Type} (s : CompletionTokenState T W)
    (result : T) : CompleteResult T W :=
  if s.complete then CompleteResult.panicked s
  else
    CompleteResult.ok
      { complete := true, result := some result, waker := none }
      s.waker.toList

/-- Outcome of one poll of a CompletionToken: Ready with the taken value and
the new state, Pending with the new state, or a panic (result already
consumed) with the state at panic time. -/
inductive CtPoll (T W : Type) where
  | ready : T → CompletionTokenState T W → CtPoll T W
  | pending : CompletionTokenState T W → CtPoll T W
  | panicked : CompletionTokenState T W → CtPoll T W
deriving DecidableEq

/-- State transition of the Future impl for CompletionToken
(completion_token.rs lines 79-89): under the lock, if complete, take the
stored result out of the slot (panicking when it was already consumed) and
return it Ready; otherwise store a clone of the context waker and return
Pending. -/
def CompletionToken.poll {T W : Type} (s : CompletionTokenState T W)
    (cx : W) : CtPoll T W :=
  if s.complete then
    match s.result with
    | some r => CtPoll.ready r { s with result := none }
    | none => CtPoll.panicked s
  else CtPoll.pending { s with waker := some cx }

/-- Clone for CompletionToken (completion_token.rs lines 92-98) clones the
Arc, aliasing the same shared cell: the shared state is unchanged. -/
def CompletionToken.clone {T W : Type} (s : CompletionTokenState T W) :
    CompletionTokenState T W := s

/-- Iterated calls to CancelationToken::cancel on the same token, keeping
only the state. -/
def cancelIter {W : Type} : Nat → CancelationTokenState W → CancelationTokenState W
  | 0, s => s
  | n + 1, s => cancelIter n (CancelationToken.cancel s).1

/-- Operations that touch the cancellation latch shared state. -/
inductive CancelOp (W : Type) where
  | cancel : CancelOp W
  | poll : W → CancelOp W
  | cloneToken : CancelOp W
  | cloneCancelable : CancelOp W

/-- Effect of each cancellation-latch operation on the shared state. -/
def CancelOp.apply {W : Type} : CancelOp W → CancelationTokenState W → CancelationTokenState W
  | CancelOp.cancel, s => (CancelationToken.cancel s).1
  | CancelOp.poll cx, s => (CancelationTokenFuture.poll s cx).1
  | CancelOp.cloneToken, s => CancelationToken.clone s
  | CancelOp.cloneCancelable, s => Cancelable.clone s

/-- Operations that touch the completion latch shared state. -/
inductive CompletionOp (T W : Type) where
  | complete : T → CompletionOp T W
  | poll : W → CompletionOp T W
  | cloneToken : CompletionOp T W

/-- State reached by Completable::complete whether or not it panics (a panic
leaves the state it carries). -/
def completeState {T W : Type} (s : CompletionTokenState T W) (v : T) :
    CompletionTokenState T W :=
  match Completable.complete s v with
  | CompleteResult.ok s2 _ => s2
  | CompleteResult.panicked s2 => s2

/-- State component of a CompletionToken poll outcome. -/
def ctPollState {T W : Type} : CtPoll T W → CompletionTokenState T W
  | CtPoll.ready _ s => s
  | CtPoll.pending s => s
  | CtPoll.panicked s => s

/-- Effect of each completion-latch operation on the shared state. -/
def CompletionOp.apply {T W : Type} : CompletionOp T W → CompletionTokenState T W → CompletionTokenState T W
  | CompletionOp.complete v, s => completeState s v
  | CompletionOp.poll cx, s => ctPollState (CompletionToken.poll s cx)
  | CompletionOp.cloneToken, s => CompletionToken.clone s

/-- States of the cancellation latch reachable from the fresh state through
the latch operations. -/
inductive CancelReachable (W : Type) : CancelationTokenState W → Prop where
  | init : CancelReachable W CancelationToken.new
  | step : ∀ (op : CancelOp W) (s : CancelationTokenState W),
      CancelReachable W s → CancelReachable W (CancelOp.apply op s)

/-- Result of one run of Cancelable::allow_cancel: the returned value (none
when the modelled executor ran out of fuel while both futures were still
pending), the number of times the raced operation was polled, and the final
shared state. -/
structure RaceResult (T W : Type) where
  result : Option T
  opPolls : Nat
  final : CancelationTokenState W
deriving DecidableEq

/-- The select loop inside Cancelable::allow_cancel (cancelation_token.rs
lines 89-96).  futures::future::select polls its first argument before its
second, so on each poll of the select the raced operation is polled first
and the CancelationTokenFuture second.  The raced operation is modelled by
its readiness schedule: it returns Pending on its first opDelay polls and
Ready opValue thereafter.  The environment is modelled by cancelBefore:
cancelBefore i is true when CancelationToken::cancel runs between select
poll number i - 1 and select poll number i (cancelBefore 0: between the
allow_cancel pre-check and the first poll).  fuel bounds how many times the
executor polls the select; i is the index of the current select poll. -/
def selectLoop {T W : Type} (opValue fb : T) (opDelay : Nat)
    (cancelBefore : Nat → Bool) (cx : W) :
    Nat → Nat → CancelationTokenState W → RaceResult T W
  | 0, i, s => { result := none, opPolls := i, final := s }
  | fuel + 1, i, s =>
    let s1 := if cancelBefore i then (CancelationToken.cancel s).1 else s
    if opDelay ≤ i then
      { result := some opValue, opPolls := i + 1, final := s1 }
    else
      match CancelationTokenFuture.poll s1 cx with
      | (s2, Poll.Ready _) => { result := some fb, opPolls := i + 1, final := s2 }
      | (s2, Poll.Pending) =>
        selectLoop opValue fb opDelay cancelBefore cx fuel (i + 1) s2

/-- Cancelable::allow_cancel (cancelation_token.rs lines 80-97): under the
lock, if already canceled return the fallback at once, without constructing
the CancelationTokenFuture and without ever polling the raced operation;
otherwise run select on the raced operation and a fresh
CancelationTokenFuture sharing the same state, returning the operation value
on Either::Left and the fallback on Either::Right. -/
def Cancelable.allow_cancel {T W : Type} (fuel : Nat)
    (s : CancelationTokenState W) (opValue fb : T) (opDelay : Nat)
    (cancelBefore : Nat → Bool) (cx : W) : RaceResult T W :=
  if s.canceled then { result := some fb, opPolls := 0, final := s }
  else selectLoop opValue fb opDelay cancelBefore cx fuel 0 s

/-- Lock and wake events of one call to cancel or complete, in program
order. -/
inductive LatchEvent (W : Type) where
  | lockAcquired : LatchEvent W
  | lockReleased : LatchEvent W
  | wakeInvoked : W → LatchEvent W
deriving DecidableEq

/-- Event trace of CancelationToken::cancel (cancelation_token.rs lines
65-72), in source order: the MutexGuard is acquired at the top of the
function, waker.wake() runs inside the scope of that guard, and the guard is
dropped, releasing the mutex, only when the function body ends. -/
def cancelTrace {W : Type} (s : CancelationTokenState W) : List (LatchEvent W) :=
  [LatchEvent.lockAcquired]
    ++ s.waker.toList.map LatchEvent.wakeInvoked
    ++ [LatchEvent.lockReleased]

/-- Event trace of Completable::complete (completion_token.rs lines 60-73),
in source order.  On the panic path the guard is dropped during unwinding;
on the normal path waker.wake() runs inside the scope of the guard and the
guard is dropped only when the function body ends. -/
def completeTrace {T W : Type} (s : CompletionTokenState T W) :
    List (LatchEvent W) :=
  if s.complete then [LatchEvent.lockAcquired, LatchEvent.lockReleased]
  else
    [LatchEvent.lockAcquired]
      ++ s.waker.toList.map LatchEvent.wakeInvoked
      ++ [LatchEvent.lockReleased]

/-- The property the specification asserts of a fire-style call: any waker
invocation happens only after the mutex has been released, that is, the
lockReleased event precedes every wakeInvoked event of the trace. -/
def wakeAfterUnlock {W : Type} (tr : List (LatchEvent W)) : Prop :=
  ∀ (pre post : List (LatchEvent W)) (w : W),
    tr = pre ++ LatchEvent.wakeInvoked w :: post →
    LatchEvent.lockReleased ∈ pre

/-- Concrete fresh completion state at payload type Nat, used by concrete
instantiations below. -/
def cFresh : CompletionTokenState Nat Nat :=
  { complete := false, result := none, waker := none }

/-- Helper: iterating cancel any number of times from the canceled state with
an empty waker slot stays there. -/
theorem cancelIter_fixed {W : Type} :
    ∀ n : Nat,
      cancelIter n ({ canceled := true, waker := none } : CancelationTokenState W)
        = { canceled := true, waker := none } := by
  intro n
  induction n with
  | zero => rfl
  | succ n ih => simpa [cancelIter, CancelationToken.cancel] using ih

/-- C2: if the token is already canceled when allow_cancel is invoked, the
pre-check returns the fallback immediately, the raced operation is polled
zero times, and the shared state is untouched. -/
theorem allow_cancel_short_circuit {T W : Type} (fuel : Nat)
    (s : CancelationTokenState W) (opValue fb : T) (opDelay : Nat)
    (cancelBefore : Nat → Bool) (cx : W) (h : s.canceled = true) :
    Cancelable.allow_cancel fuel s opValue fb opDelay cancelBefore cx
      = { result := some fb, opPolls := 0, final := s } := by
  simp [Cancelable.allow_cancel, h]

/-- Witness for allow_cancel_short_circuit at a concrete canceled state. -/
theorem allow_cancel_short_circuit_witness :
    ({ canceled := true, waker := none } : CancelationTokenState Nat).canceled = true ∧
    Cancelable.allow_cancel 5
        ({ canceled := true, waker := none } : CancelationTokenState Nat)
        (1 : Nat) 2 3 (fun _ => false) 0
      = { result := some 2, opPolls := 0,
          final := { canceled := true, waker := none } } :=
  ⟨rfl,
   allow_cancel_short_circuit 5 { canceled := true, waker := none } 1 2 3
     (fun _ => false) 0 rfl⟩

/-- C4: any sequence of N ≥ 1 calls to cancel leaves the latch canceled,
equals the state after the very first call, and every call after the first
is a strict no-op: it leaves the state unchanged and invokes no waker.  In
the model cancel is a total function, so no call panics. -/
theorem cancel_idempotent {W : Type} (s : CancelationTokenState W) (N : Nat)
    (h : 1 ≤ N) :
    (cancelIter N s).canceled = true ∧
    cancelIter N s = (CancelationToken.cancel s).1 ∧
    CancelationToken.cancel (CancelationToken.cancel s).1
      = ((CancelationToken.cancel s).1, ([] : List W)) := by
  obtain ⟨m, rfl⟩ : ∃ m, N = m + 1 := ⟨N - 1, by omega⟩
  refine ⟨?_, ?_, rfl⟩
  · simp [cancelIter, CancelationToken.cancel, cancelIter_fixed]
  · simp [cancelIter, CancelationToken.cancel, cancelIter_fixed]

/-- Witness for cancel_idempotent: three cancels on a fresh latch. -/
theorem cancel_idempotent_witness :
    (1 : Nat) ≤ 3 ∧
    ((cancelIter 3 (CancelationToken.new : CancelationTokenState Nat)).canceled = true ∧
     cancelIter 3 (CancelationToken.new : CancelationTokenState Nat)
       = (CancelationToken.cancel CancelationToken.new).1 ∧
     CancelationToken.cancel (CancelationToken.cancel (CancelationToken.new : CancelationTokenState Nat)).1
       = ((CancelationToken.cancel CancelationToken.new).1, ([] : List Nat))) :=
  ⟨by omega, cancel_idempotent CancelationToken.new 3 (by omega)⟩

/-- C5: completing a not-yet-complete latch succeeds, setting complete and
storing the value; a second complete on the resulting state panics, and the
state it leaves behind is exactly the state produced by the first call. -/
theorem double_complete_panics {T W : Type} (s : CompletionTokenState T W)
    (v1 v2 : T) (h : s.complete = false) :
    Completable.complete s v1
      = CompleteResult.ok
          { complete := true, result := some v1, waker := none } s.waker.toList ∧
    Completable.complete
        ({ complete := true, result := some v1, waker := none } :
          CompletionTokenState T W) v2
      = CompleteResult.panicked
          { complete := true, result := some v1, waker := none } := by
  constructor
  · simp [Completable.complete, h]
  · simp [Completable.complete]

/-- Witness for double_complete_panics on a fresh completion latch. -/
theorem double_complete_panics_witness :
    cFresh.complete = false ∧
    (Completable.complete cFresh 10
       = CompleteResult.ok
           { complete := true, result := some 10, waker := none } cFresh.waker.toList ∧
     Completable.complete
         ({ complete := true, result := some 10, waker := none } :
           CompletionTokenState Nat Nat) 20
       = CompleteResult.panicked
           { complete := true, result := some 10, waker := none }) :=
  ⟨rfl, double_complete_panics cFresh 10 20 rfl⟩

/-- C7: polling the cancellation future while the latch is pending stores the
context waker; a subsequent cancel invokes exactly that waker, exactly once,
and empties the slot. -/
theorem no_missed_wakeup {W : Type} (s : CancelationTokenState W) (cx : W)
    (h : s.canceled = false) :
    CancelationTokenFuture.poll s cx
      = ({ canceled := false, waker := some cx }, Poll.Pending) ∧
    CancelationToken.cancel
        ({ canceled := false, waker := some cx } : CancelationTokenState W)
      = ({ canceled := true, waker := none }, [cx]) := by
  obtain ⟨c, w⟩ := s
  cases h
  exact ⟨rfl, rfl⟩

/-- Witness for no_missed_wakeup on the fresh latch with waker 7. -/
theorem no_missed_wakeup_witness :
    (CancelationToken.new : CancelationTokenState Nat).canceled = false ∧
    (CancelationTokenFuture.poll (CancelationToken.new : CancelationTokenState Nat) 7
       = ({ canceled := false, waker := some 7 }, Poll.Pending) ∧
     CancelationToken.cancel
         ({ canceled := false, waker := some 7 } : CancelationTokenState Nat)
       = ({ canceled := true, waker := none }, [7])) :=
  ⟨rfl, no_missed_wakeup CancelationToken.new 7 rfl⟩

/-- C6: monotonicity of the latch flags: once canceled (cancellation latch)
or complete (completion latch) is true, every further operation of the
respective latch leaves it true. -/
theorem latch_monotonic (T W : Type) :
    (∀ (op : CancelOp W) (s : CancelationTokenState W),
      s.canceled = true → (CancelOp.apply op s).canceled = true) ∧
    (∀ (op : CompletionOp T W) (s : CompletionTokenState T W),
      s.complete = true → (CompletionOp.apply op s).complete = true) := by
  constructor
  · intro op s h
    cases op with
    | cancel => rfl
    | poll cx =>
      simp [CancelOp.apply, CancelationTokenFuture.poll, h]
    | cloneToken => exact h
    | cloneCancelable => exact h
  · intro op s h
    cases op with
    | complete v =>
      simp [CompletionOp.apply, completeState, Completable.complete, h]
    | poll cx =>
      cases hr : s.result with
      | some r =>
        simp [CompletionOp.apply, CompletionToken.poll, ctPollState, h, hr]
      | none =>
        simp [CompletionOp.apply, CompletionToken.poll, ctPollState, h, hr]
    | cloneToken => exact h

/-- Witness for latch_monotonic: a cancel on an already canceled state and a
poll on an already complete state both keep the flag set. -/
theorem latch_monotonic_witness :
    (CancelOp.apply CancelOp.cancel
        ({ canceled := true, waker := none } : CancelationTokenState Nat)).canceled = true ∧
    (CompletionOp.apply (CompletionOp.poll 3)
        ({ complete := true, result := some 5, waker := none } :
          CompletionTokenState Nat Nat)).complete = true :=
  ⟨(latch_monotonic Nat Nat).1 CancelOp.cancel { canceled := true, waker := none } rfl,
   (latch_monotonic Nat Nat).2 (CompletionOp.poll 3)
     { complete := true, result := some 5, waker := none } rfl⟩

/-- C9: once the cancellation latch is fired, every poll of the cancellation
future resolves immediately with Ready and leaves the state, including the
waker slot, unchanged; moreover on every reachable state, canceled = true
implies the waker slot is empty, so the slot stays empty after every poll. -/
theorem fired_poll_immediate (W : Type) :
    (∀ (s : CancelationTokenState W) (cx : W), s.canceled = true →
      CancelationTokenFuture.poll s cx = (s, Poll.Ready ())) ∧
    (∀ s : CancelationTokenState W,
      CancelReachable W s → s.canceled = true → s.waker = none) := by
  constructor
  · intro s cx h
    simp [CancelationTokenFuture.poll, h]
  · intro s hr
    induction hr with
    | init => intro h; cases h
    | step op s hs ih =>
      cases op with
      | cancel => intro _; rfl
      | poll cx =>
        intro h
        cases hc : s.canceled with
        | true => simpa [CancelOp.apply, CancelationTokenFuture.poll, hc] using ih hc
        | false => simp [CancelOp.apply, CancelationTokenFuture.poll, hc] at h
      | cloneToken => exact ih
      | cloneCancelable => exact ih

/-- Witness for fired_poll_immediate: poll on a canceled state, and the
reachable canceled state obtained by one cancel from the fresh state. -/
theorem fired_poll_immediate_witness :
    CancelationTokenFuture.poll
        ({ canceled := true, waker := none } : CancelationTokenState Nat) 4
      = ({ canceled := true, waker := none }, Poll.Ready ()) ∧
    (CancelOp.apply CancelOp.cancel (CancelationToken.new : CancelationTokenState Nat)).waker
      = none :=
  ⟨(fired_poll_immediate Nat).1 { canceled := true, waker := none } 4 rfl,
   (fired_poll_immediate Nat).2 _
     (CancelReachable.step CancelOp.cancel CancelationToken.new CancelReachable.init) rfl⟩

/-- C1 counterexample: after complete(0) on a fresh completion latch, the
first poll yields 0 but a second poll, here performed through a clone of the
CompletionToken sharing the same cell, panics with result already consumed
instead of yielding 0.  This refutes the claim that every subsequent poll of
the token, including on clones, yields the completed value. -/
theorem completion_reread_cex :
    Completable.complete cFresh 0
      = CompleteResult.ok
          { complete := true, result := some 0, waker := none } [] ∧
    CompletionToken.poll
        ({ complete := true, result := some 0, waker := none } :
          CompletionTokenState Nat Nat) 0
      = CtPoll.ready 0 { complete := true, result := none, waker := none } ∧
    CompletionToken.poll
        (CompletionToken.clone
          ({ complete := true, result := none, waker := none } :
            CompletionTokenState Nat Nat)) 0
      = CtPoll.panicked { complete := true, result := none, waker := none } ∧
    ¬ ∃ s3 : CompletionTokenState Nat Nat,
        CompletionToken.poll
            (CompletionToken.clone
              ({ complete := true, result := none, waker := none } :
                CompletionTokenState Nat Nat)) 0
          = CtPoll.ready 0 s3 := by
  refine ⟨rfl, rfl, rfl, ?_⟩
  rintro ⟨s3, hcontra⟩
  exact CtPoll.noConfusion hcontra

/-- C1 amended: after complete(v) on a not-yet-complete latch, the first poll
resolves immediately with v and consumes the stored result; any further poll
of the shared cell, on the same token or any clone, panics (result already
consumed) instead of yielding v. -/
theorem completion_single_read {T W : Type} (s : CompletionTokenState T W)
    (v : T) (cx cx2 : W) (h : s.complete = false) :
    Completable.complete s v
      = CompleteResult.ok
          { complete := true, result := some v, waker := none } s.waker.toList ∧
    CompletionToken.poll
        ({ complete := true, result := some v, waker := none } :
          CompletionTokenState T W) cx
      = CtPoll.ready v { complete := true, result := none, waker := none } ∧
    CompletionToken.poll
        (CompletionToken.clone
          ({ complete := true, result := none, waker := none } :
            CompletionTokenState T W)) cx2
      = CtPoll.panicked { complete := true, result := none, waker := none } := by
  refine ⟨?_, ?_, ?_⟩
  · simp [Completable.complete, h]
  · simp [CompletionToken.poll]
  · simp [CompletionToken.poll, CompletionToken.clone]

/-- Witness for completion_single_read on a fresh latch with v = 9. -/
theorem completion_single_read_witness :
    cFresh.complete = false ∧
    (Completable.complete cFresh 9
       = CompleteResult.ok
           { complete := true, result := some 9, waker := none } cFresh.waker.toList ∧
     CompletionToken.poll
         ({ complete := true, result := some 9, waker := none } :
           CompletionTokenState Nat Nat) 1
       = CtPoll.ready 9 { complete := true, result := none, waker := none } ∧
     CompletionToken.poll
         (CompletionToken.clone
           ({ complete := true, result := none, waker := none } :
             CompletionTokenState Nat Nat)) 2
       = CtPoll.panicked { complete := true, result := none, waker := none }) :=
  ⟨rfl, completion_single_read cFresh 9 1 2 rfl⟩

/-- C8 counterexample: in CancelationToken::cancel on a state holding a
stored waker, the wakeInvoked event occurs before the lockReleased event,
because waker.wake() runs while the MutexGuard is still alive.  This refutes
the claim that the continuation is invoked only after the mutex has been
released. -/
theorem wake_before_unlock_cex :
    cancelTrace ({ canceled := false, waker := some 0 } : CancelationTokenState Nat)
      = [LatchEvent.lockAcquired, LatchEvent.wakeInvoked 0, LatchEvent.lockReleased] ∧
    ¬ wakeAfterUnlock
        (cancelTrace ({ canceled := false, waker := some 0 } : CancelationTokenState Nat)) := by
  refine ⟨rfl, ?_⟩
  intro hclaim
  have h2 := hclaim [LatchEvent.lockAcquired] [LatchEvent.lockReleased] 0 rfl
  exact absurd h2 (by decide)

/-- C8 amended: in every call to cancel or complete that finds a stored
continuation, the continuation is invoked while the mutex is still held: the
wakeInvoked event lies strictly between lockAcquired and lockReleased in the
event trace, not after the release. -/
theorem wake_invoked_under_lock (T W : Type) :
    (∀ (s : CancelationTokenState W) (w : W), s.waker = some w →
      cancelTrace s
        = [LatchEvent.lockAcquired, LatchEvent.wakeInvoked w, LatchEvent.lockReleased]) ∧
    (∀ (s : CompletionTokenState T W) (w : W),
      s.complete = false → s.waker = some w →
      completeTrace s
        = [LatchEvent.lockAcquired, LatchEvent.wakeInvoked w, LatchEvent.lockReleased]) := by
  constructor
  · intro s w hw
    simp [cancelTrace, hw]
  · intro s w hc hw
    simp [completeTrace, hc, hw]

/-- Witness for wake_invoked_under_lock at concrete states with waker 3. -/
theorem wake_invoked_under_lock_witness :
    cancelTrace ({ canceled := false, waker := some 3 } : CancelationTokenState Nat)
      = [LatchEvent.lockAcquired, LatchEvent.wakeInvoked 3, LatchEvent.lockReleased] ∧
    completeTrace
        ({ complete := false, result := none, waker := some 3 } :
          CompletionTokenState Nat Nat)
      = [LatchEvent.lockAcquired, LatchEvent.wakeInvoked 3, LatchEvent.lockReleased] :=
  ⟨(wake_invoked_under_lock Nat Nat).1 { canceled := false, waker := some 3 } 3 rfl,
   (wake_invoked_under_lock Nat Nat).2
     { complete := false, result := none, waker := some 3 } 3 rfl rfl⟩

/-- C10: left bias of the race.  When the pre-check finds the latch not yet
fired but cancel runs before the first poll of the select (so the raced
operation and the cancellation future are both ready at that first poll),
allow_cancel returns the operation value, not the fallback, because select
polls the raced operation before the cancellation future. -/
theorem allow_cancel_left_bias {T W : Type} (fuel : Nat)
    (s : CancelationTokenState W) (opValue fb : T) (cancelBefore : Nat → Bool)
    (cx : W) (h : s.canceled = false) (hc : cancelBefore 0 = true)
    (hf : 0 < fuel) :
    Cancelable.allow_cancel fuel s opValue fb 0 cancelBefore cx
      = { result := some opValue, opPolls := 1,
          final := { canceled := true, waker := none } } := by
  obtain ⟨n, rfl⟩ : ∃ n, fuel = n + 1 := ⟨fuel - 1, by omega⟩
  simp [Cancelable.allow_cancel, h, selectLoop, hc, CancelationToken.cancel]

/-- Witness for allow_cancel_left_bias: fresh latch, immediate operation,
cancel arriving between the pre-check and the first poll. -/
theorem allow_cancel_left_bias_witness :
    (CancelationToken.new : CancelationTokenState Nat).canceled = false ∧
    (fun _ : Nat => true) 0 = true ∧
    0 < 2 ∧
    Cancelable.allow_cancel 2 (CancelationToken.new : CancelationTokenState Nat)
        (7 : Nat) 8 0 (fun _ => true) 0
      = { result := some 7, opPolls := 1,
          final := { canceled := true, waker := none } } :=
  ⟨rfl, rfl, by omega,
   allow_cancel_left_bias 2 CancelationToken.new 7 8 (fun _ => true) 0 rfl rfl
     (by omega)⟩

/-- Helper: if the latch is pending and no cancel arrives strictly before
select poll number opDelay, the raced operation wins: the loop returns the
operation value after polling the operation opDelay + 1 times. -/
theorem selectLoop_op_wins {T W : Type} (opValue fb : T) (opDelay : Nat)
    (cancelBefore : Nat → Bool) (cx : W) :
    ∀ (fuel i : Nat) (s : CancelationTokenState W), s.canceled = false →
      i ≤ opDelay → opDelay - i < fuel →
      (∀ j, i ≤ j → j < opDelay → cancelBefore j = false) →
      (selectLoop opValue fb opDelay cancelBefore cx fuel i s).result
        = some opValue ∧
      (selectLoop opValue fb opDelay cancelBefore cx fuel i s).opPolls
        = opDelay + 1 := by
  intro fuel
  induction fuel with
  | zero =>
    intro i s _ _ hlt _
    exact absurd hlt (by omega)
  | succ n ih =>
    intro i s hs hi hlt hnc
    by_cases hop : opDelay ≤ i
    · have hieq : i = opDelay := by omega
      subst hieq
      cases hcb : cancelBefore i <;> simp [selectLoop, hcb]
    · have hilt : i < opDelay := by omega
      have hci : cancelBefore i = false := hnc i le_rfl hilt
      have hstep : selectLoop opValue fb opDelay cancelBefore cx (n + 1) i s
          = selectLoop opValue fb opDelay cancelBefore cx n (i + 1)
              { s with waker := some cx } := by
        simp [selectLoop, hci, hop, CancelationTokenFuture.poll, hs]
      rw [hstep]
      exact ih (i + 1) { s with waker := some cx } hs (by omega) (by omega)
        (fun j hj1 hj2 => hnc j (by omega) hj2)

/-- Helper: if a cancel arrives at some select poll strictly before the raced
operation becomes ready, the cancellation future wins and the loop returns
the fallback. -/
theorem selectLoop_cancel_wins {T W : Type} (opValue fb : T) (opDelay : Nat)
    (cancelBefore : Nat → Bool) (cx : W) :
    ∀ (fuel i : Nat) (s : CancelationTokenState W),
      i < opDelay → 0 < fuel →
      (s.canceled = true ∨
        ∃ j, i ≤ j ∧ j < opDelay ∧ j - i < fuel ∧ cancelBefore j = true) →
      (selectLoop opValue fb opDelay cancelBefore cx fuel i s).result
        = some fb := by
  intro fuel
  induction fuel with
  | zero =>
    intro i s _ hf _
    exact absurd hf (by omega)
  | succ n ih =>
    intro i s hi _ hdisj
    have hop : ¬ opDelay ≤ i := by omega
    cases hcb : cancelBefore i with
    | true =>
      simp [selectLoop, hcb, hop, CancelationTokenFuture.poll,
        CancelationToken.cancel]
    | false =>
      cases hsc : s.canceled with
      | true =>
        simp [selectLoop, hcb, hop, CancelationTokenFuture.poll, hsc]
      | false =>
        rcases hdisj with h | ⟨j, hij, hjd, hjf, hjc⟩
        · rw [hsc] at h
          cases h
        · have hjne : j ≠ i := by
            intro he
            rw [he, hcb] at hjc
            cases hjc
          have hstep : selectLoop opValue fb opDelay cancelBefore cx (n + 1) i s
              = selectLoop opValue fb opDelay cancelBefore cx n (i + 1)
                  { s with waker := some cx } := by
            simp [selectLoop, hcb, hop, CancelationTokenFuture.poll, hsc]
          rw [hstep]
          exact ih (i + 1) { s with waker := some cx } (by omega) (by omega)
            (Or.inr ⟨j, by omega, hjd, by omega, hjc⟩)

/-- C3: when the latch is not yet fired at the start of allow_cancel, the
race decides the outcome.  If the raced operation becomes ready at select
poll opDelay and no cancel arrives strictly before that poll, allow_cancel
returns the operation value.  If a cancel arrives at some select poll
strictly before the operation is ready, allow_cancel returns the fallback. -/
theorem allow_cancel_race {T W : Type} (fuel : Nat)
    (s : CancelationTokenState W) (opValue fb : T) (opDelay : Nat)
    (cancelBefore : Nat → Bool) (cx : W) (h : s.canceled = false) :
    ((opDelay < fuel ∧ ∀ j, j < opDelay → cancelBefore j = false) →
      (Cancelable.allow_cancel fuel s opValue fb opDelay cancelBefore cx).result
        = some opValue ∧
      (Cancelable.allow_cancel fuel s opValue fb opDelay cancelBefore cx).opPolls
        = opDelay + 1) ∧
    ((∃ j, j < opDelay ∧ j < fuel ∧ cancelBefore j = true) →
      (Cancelable.allow_cancel fuel s opValue fb opDelay cancelBefore cx).result
        = some fb) := by
  have hac : Cancelable.allow_cancel fuel s opValue fb opDelay cancelBefore cx
      = selectLoop opValue fb opDelay cancelBefore cx fuel 0 s := by
    simp [Cancelable.allow_cancel, h]
  constructor
  · rintro ⟨hfd, hnc⟩
    rw [hac]
    exact selectLoop_op_wins opValue fb opDelay cancelBefore cx fuel 0 s h
      (by omega) (by omega) (fun j _ hj => hnc j hj)
  · rintro ⟨j, hjd, hjf, hjc⟩
    rw [hac]
    exact selectLoop_cancel_wins opValue fb opDelay cancelBefore cx fuel 0 s
      (by omega) (by omega) (Or.inr ⟨j, by omega, hjd, by omega, hjc⟩)

/-- Witness for allow_cancel_race: an operation ready at its second poll wins
when no cancel arrives, and loses to a cancel arriving before the first
poll. -/
theorem allow_cancel_race_witness :
    (CancelationToken.new : CancelationTokenState Nat).canceled = false ∧
    ((Cancelable.allow_cancel 3 (CancelationToken.new : CancelationTokenState Nat)
        (1 : Nat) 2 1 (fun _ => false) 0).result = some 1 ∧
     (Cancelable.allow_cancel 3 (CancelationToken.new : CancelationTokenState Nat)
        (1 : Nat) 2 1 (fun _ => false) 0).opPolls = 2) ∧
    (Cancelable.allow_cancel 3 (CancelationToken.new : CancelationTokenState Nat)
        (1 : Nat) 2 1 (fun _ => true) 0).result = some 2 :=
  ⟨rfl,
   (allow_cancel_race 3 CancelationToken.new 1 2 1 (fun _ => false) 0 rfl).1
     ⟨by omega, fun j hj => rfl⟩,
   (allow_cancel_race 3 CancelationToken.new 1 2 1 (fun _ => true) 0 rfl).2
     ⟨0, by omega, by omega, rfl⟩⟩
